import Mathlib

/-!
Verification of the repository-options subsystem of the `hubcaps` GitHub
client (`src/repositories/mod.rs`).

Rust strings are modelled as their byte sequences (`List Nat`, each entry
below 256); all keys and enum tokens in this module are ASCII, so the byte
view of a Rust string literal is the list of its characters' code points.
The `HashMap<&'static str, String>` parameter mapping is modelled as an
association list with overwriting insert (`HashMap::insert` semantics:
at most one value per key, last write wins); iteration order of the Rust
map is unspecified, so map-level facts below are stated so that they do
not depend on the association list's order, or are order-independent
set facts.
-/

namespace Hubcaps

/-- Byte view of an ASCII Rust string literal. -/
def ascii (s : String) : List Nat := s.data.map Char.toNat

/-- `enum Visibility` (src/repositories/mod.rs lines 22-27). -/
inductive Visibility where
  | All
  | Public
  | Private
deriving DecidableEq

/-- `impl fmt::Display for Visibility` (lines 29-39). -/
def Visibility.display : Visibility → List Nat
  | .All => ascii ("all")
  | .Public => ascii ("public")
  | .Private => ascii ("private")

/-- `enum Sort` (lines 42-48); named `SortKind` because `Sort` is a Lean
keyword. -/
inductive SortKind where
  | Created
  | Updated
  | Pushed
  | FullName
deriving DecidableEq

/-- `impl fmt::Display for Sort` (lines 50-61). -/
def SortKind.display : SortKind → List Nat
  | .Created => ascii ("created")
  | .Updated => ascii ("updated")
  | .Pushed => ascii ("pushed")
  | .FullName => ascii ("full_name")

/-- `enum Affiliation` (lines 64-69). -/
inductive Affiliation where
  | Owner
  | Collaborator
  | OrganizationMember
deriving DecidableEq

/-- `impl fmt::Display for Affiliation` (lines 71-81). -/
def Affiliation.display : Affiliation → List Nat
  | .Owner => ascii ("owner")
  | .Collaborator => ascii ("collaborator")
  | .OrganizationMember => ascii ("organization_member")

/-- `enum Type` (lines 84-91); named `TypeKind` because `Type` is a Lean
keyword. -/
inductive TypeKind where
  | All
  | Owner
  | Public
  | Private
  | Member
deriving DecidableEq

/-- `impl fmt::Display for Type` (lines 93-105). -/
def TypeKind.display : TypeKind → List Nat
  | .All => ascii ("all")
  | .Owner => ascii ("owner")
  | .Public => ascii ("public")
  | .Private => ascii ("private")
  | .Member => ascii ("member")

/-- `enum OrgRepoType` (lines 108-116). -/
inductive OrgRepoType where
  | All
  | Public
  | Private
  | Forks
  | Sources
  | Member
deriving DecidableEq

/-- `impl fmt::Display for OrgRepoType` (lines 118-131). -/
def OrgRepoType.display : OrgRepoType → List Nat
  | .All => ascii ("all")
  | .Public => ascii ("public")
  | .Private => ascii ("private")
  | .Forks => ascii ("forks")
  | .Sources => ascii ("sources")
  | .Member => ascii ("member")

/-- Modelled from the spec: the crate-root `SortDirection` enum
(`use super::SortDirection`, line 16) is not under src/; the spec's
end-to-end scenario fixes `Desc ↦ "desc"` and the option enums' common
lowercase convention (spec section 3, "each variant maps to exactly one
fixed lowercase string token") gives `Asc ↦ "asc"`. -/
inductive SortDirection where
  | Asc
  | Desc
deriving DecidableEq

/-- Modelled from the spec: `Display` of the crate-root `SortDirection`. -/
def SortDirection.display : SortDirection → List Nat
  | .Asc => ascii ("asc")
  | .Desc => ascii ("desc")

/-- The `HashMap<&'static str, String>` parameter mapping, as an
association list of (key bytes, value bytes). -/
abbrev Params := List (List Nat × List Nat)

/-- `HashMap::insert`: overwrite the value at `k` if present, else add
the binding. -/
def insertP (ps : Params) (k v : List Nat) : Params :=
  match ps with
  | [] => [(k, v)]
  | p :: rest => if p.1 = k then (k, v) :: rest else p :: insertP rest k v

/-- `HashMap` lookup. -/
def lookupP (ps : Params) (k : List Nat) : Option (List Nat) :=
  match ps with
  | [] => none
  | p :: rest => if p.1 = k then some p.2 else lookupP rest k

/-- Bytes left unescaped by the `url` crate's form-urlencoded serializer:
ASCII alphanumerics and `*`, `-`, `.`, `_`. -/
def isSafeByte (b : Nat) : Bool :=
  (48 ≤ b && b ≤ 57) || (65 ≤ b && b ≤ 90) || (97 ≤ b && b ≤ 122) ||
    b == 42 || b == 45 || b == 46 || b == 95

/-- Uppercase hex digit byte for a nibble. -/
def hexDig (n : Nat) : Nat := if n < 10 then 48 + n else 55 + n

/-- Form-urlencoded encoding of one byte (the wire format of spec
section 6: `application/x-www-form-urlencoded`): space becomes `+`,
safe bytes pass through, everything else is percent-escaped. -/
def encodeByte (b : Nat) : List Nat :=
  if b = 32 then [43]
  else if isSafeByte b then [b]
  else [37, hexDig (b / 16), hexDig (b % 16)]

/-- Form-urlencoded encoding of a byte string. -/
def encodeBytes (s : List Nat) : List Nat := (s.map encodeByte).flatten

/-- One `key=value` unit of the serialized query string. -/
def serializePair (p : List Nat × List Nat) : List Nat :=
  encodeBytes p.1 ++ 61 :: encodeBytes p.2

/-- The shared body of `RepoListOptions::serialize`,
`UserRepoListOptions::serialize` and
`OrganizationRepoListOptions::serialize` (lines 549-558, 624-633,
685-694): `None` when the mapping is empty, otherwise the
form-urlencoded `key=value` pairs joined with `&`. -/
def serializeParams (ps : Params) : Option (List Nat) :=
  if ps = [] then none
  else some (List.intercalate [38] (ps.map serializePair))

/-- Numeric value of a hex digit byte. -/
def hexVal (c : Nat) : Nat :=
  if 48 ≤ c && c ≤ 57 then c - 48
  else if 65 ≤ c && c ≤ 70 then c - 55
  else c - 87

/-- Recognizer for hex digit bytes (both cases). -/
def isHexByte (c : Nat) : Bool :=
  (48 ≤ c && c ≤ 57) || (65 ≤ c && c ≤ 70) || (97 ≤ c && c ≤ 102)

/-- Form-urlencoded decoding of a byte string: `+` becomes space, a
`%` followed by two hex digits becomes the escaped byte, everything
else passes through. -/
def decodeBytes : List Nat → List Nat
  | [] => []
  | 43 :: rest => 32 :: decodeBytes rest
  | 37 :: h1 :: h2 :: rest2 =>
    if isHexByte h1 && isHexByte h2 then
      (16 * hexVal h1 + hexVal h2) :: decodeBytes rest2
    else 37 :: decodeBytes (h1 :: h2 :: rest2)
  | c :: rest => c :: decodeBytes rest

/-- Split a query-string unit at its first `=` (a unit with no `=` is a
key with empty value). -/
def splitEq : List Nat → List Nat × List Nat
  | [] => ([], [])
  | c :: rest =>
    if c = 61 then ([], rest)
    else (c :: (splitEq rest).1, (splitEq rest).2)

/-- Decode one `key=value` unit into a (key, value) byte-string pair. -/
def decodePiece (p : List Nat) : List Nat × List Nat :=
  let kv := splitEq p
  (decodeBytes kv.1, decodeBytes kv.2)

/-- Split a byte string at every occurrence of the separator byte. -/
def splitSep (sep : Nat) : List Nat → List (List Nat)
  | [] => [[]]
  | c :: rest =>
    match splitSep sep rest with
    | [] => []
    | h :: t => if c = sep then [] :: h :: t else (c :: h) :: t

/-- Form-urlencoded parsing of a whole query string into (key, value)
pairs: split on `&`, drop empty units, decode each unit. -/
def decodeQuery (s : List Nat) : Params :=
  ((splitSep 38 s).filter (fun p => p ≠ [])).map decodePiece

/-- `struct RepoListOptions` (lines 538-541). -/
structure RepoListOptions where
  params : Params
deriving DecidableEq

/-- `RepoListOptions::serialize` (lines 549-558). -/
def RepoListOptions.serialize (o : RepoListOptions) : Option (List Nat) :=
  serializeParams o.params

/-- `struct UserRepoListOptions` (lines 613-616). -/
structure UserRepoListOptions where
  params : Params
deriving DecidableEq

/-- `UserRepoListOptions::serialize` (lines 624-633). -/
def UserRepoListOptions.serialize (o : UserRepoListOptions) : Option (List Nat) :=
  serializeParams o.params

/-- `struct OrganizationRepoListOptions` (lines 674-677). -/
structure OrganizationRepoListOptions where
  params : Params
deriving DecidableEq

/-- `OrganizationRepoListOptions::serialize` (lines 685-694). -/
def OrganizationRepoListOptions.serialize (o : OrganizationRepoListOptions) :
    Option (List Nat) :=
  serializeParams o.params

/-- `struct RepoListOptionsBuilder` (lines 561-564); `&mut self` setters
are modelled by state passing. -/
structure RepoListOptionsBuilder where
  params : Params
deriving DecidableEq

/-- `RepoListOptionsBuilder::new` (lines 567-569). -/
def RepoListOptionsBuilder.new : RepoListOptionsBuilder := ⟨[]⟩

/-- `RepoListOptionsBuilder::visibility` (lines 571-574). -/
def RepoListOptionsBuilder.visibility (b : RepoListOptionsBuilder)
    (vis : Visibility) : RepoListOptionsBuilder :=
  ⟨insertP b.params (ascii ("visibility")) vis.display⟩

/-- `RepoListOptionsBuilder::affiliation` (lines 576-583): the values are
stringified individually and joined with `,` in the given order. -/
def RepoListOptionsBuilder.affiliation (b : RepoListOptionsBuilder)
    (affiliations : List Affiliation) : RepoListOptionsBuilder :=
  ⟨insertP b.params (ascii ("affiliation"))
    (List.intercalate (ascii (",")) (affiliations.map Affiliation.display))⟩

/-- `RepoListOptionsBuilder::repo_type` (lines 585-588): note the
parameter type is the sort-field enum `Sort`. -/
def RepoListOptionsBuilder.repo_type (b : RepoListOptionsBuilder)
    (tpe : SortKind) : RepoListOptionsBuilder :=
  ⟨insertP b.params (ascii ("type")) tpe.display⟩

/-- `RepoListOptionsBuilder::sort` (lines 590-593). -/
def RepoListOptionsBuilder.sort (b : RepoListOptionsBuilder)
    (s : SortKind) : RepoListOptionsBuilder :=
  ⟨insertP b.params (ascii ("sort")) s.display⟩

/-- `RepoListOptionsBuilder::direction` (lines 603-606). -/
def RepoListOptionsBuilder.direction (b : RepoListOptionsBuilder)
    (d : SortDirection) : RepoListOptionsBuilder :=
  ⟨insertP b.params (ascii ("direction")) d.display⟩

/-- `RepoListOptionsBuilder::asc` (lines 595-597). -/
def RepoListOptionsBuilder.asc (b : RepoListOptionsBuilder) :
    RepoListOptionsBuilder :=
  b.direction SortDirection.Asc

/-- `RepoListOptionsBuilder::desc` (lines 599-601). -/
def RepoListOptionsBuilder.desc (b : RepoListOptionsBuilder) :
    RepoListOptionsBuilder :=
  b.direction SortDirection.Desc

/-- `RepoListOptionsBuilder::build` (lines 608-610): clones the map into
a fresh options value. -/
def RepoListOptionsBuilder.build (b : RepoListOptionsBuilder) :
    RepoListOptions :=
  ⟨b.params⟩

/-- `struct UserRepoListOptionsBuilder` (lines 636-639). -/
structure UserRepoListOptionsBuilder where
  params : Params
deriving DecidableEq

/-- `UserRepoListOptionsBuilder::new` (lines 642-644). -/
def UserRepoListOptionsBuilder.new : UserRepoListOptionsBuilder := ⟨[]⟩

/-- `UserRepoListOptionsBuilder::repo_type` (lines 646-649). -/
def UserRepoListOptionsBuilder.repo_type (b : UserRepoListOptionsBuilder)
    (tpe : TypeKind) : UserRepoListOptionsBuilder :=
  ⟨insertP b.params (ascii ("type")) tpe.display⟩

/-- `UserRepoListOptionsBuilder::sort` (lines 651-654): note the
parameter type is the repository-type enum `Type`. -/
def UserRepoListOptionsBuilder.sort (b : UserRepoListOptionsBuilder)
    (s : TypeKind) : UserRepoListOptionsBuilder :=
  ⟨insertP b.params (ascii ("sort")) s.display⟩

/-- `UserRepoListOptionsBuilder::direction` (lines 664-667). -/
def UserRepoListOptionsBuilder.direction (b : UserRepoListOptionsBuilder)
    (d : SortDirection) : UserRepoListOptionsBuilder :=
  ⟨insertP b.params (ascii ("direction")) d.display⟩

/-- `UserRepoListOptionsBuilder::asc` (lines 656-658). -/
def UserRepoListOptionsBuilder.asc (b : UserRepoListOptionsBuilder) :
    UserRepoListOptionsBuilder :=
  b.direction SortDirection.Asc

/-- `UserRepoListOptionsBuilder::desc` (lines 660-662). -/
def UserRepoListOptionsBuilder.desc (b : UserRepoListOptionsBuilder) :
    UserRepoListOptionsBuilder :=
  b.direction SortDirection.Desc

/-- `UserRepoListOptionsBuilder::build` (lines 669-671). -/
def UserRepoListOptionsBuilder.build (b : UserRepoListOptionsBuilder) :
    UserRepoListOptions :=
  ⟨b.params⟩

/-- `struct OrganizationRepoListOptionsBuilder` (lines 697-700). -/
structure OrganizationRepoListOptionsBuilder where
  params : Params
deriving DecidableEq

/-- `OrganizationRepoListOptionsBuilder::new` (lines 703-705). -/
def OrganizationRepoListOptionsBuilder.new : OrganizationRepoListOptionsBuilder :=
  ⟨[]⟩

/-- `OrganizationRepoListOptionsBuilder::repo_type` (lines 707-710). -/
def OrganizationRepoListOptionsBuilder.repo_type
    (b : OrganizationRepoListOptionsBuilder) (tpe : OrgRepoType) :
    OrganizationRepoListOptionsBuilder :=
  ⟨insertP b.params (ascii ("type")) tpe.display⟩

/-- `OrganizationRepoListOptionsBuilder::build` (lines 712-714). -/
def OrganizationRepoListOptionsBuilder.build
    (b : OrganizationRepoListOptionsBuilder) : OrganizationRepoListOptions :=
  ⟨b.params⟩

/-! ### Caller-side builder programs

A caller interacts with a builder through a sequence of setter calls;
`RepoListOp` (resp. `UserRepoListOp`, `OrgRepoListOp`) enumerates the
setters of `RepoListOptionsBuilder` (resp. the other two builders), so a
list of ops is an arbitrary caller program against the builder API. -/

/-- The setters of `RepoListOptionsBuilder` (lines 571-606). -/
inductive RepoListOp where
  | visibility (v : Visibility)
  | affiliation (l : List Affiliation)
  | repo_type (t : SortKind)
  | sort (s : SortKind)
  | asc
  | desc
  | direction (d : SortDirection)
deriving DecidableEq

/-- Apply one setter call to a `RepoListOptionsBuilder`. -/
def applyRepoListOp (b : RepoListOptionsBuilder) : RepoListOp → RepoListOptionsBuilder
  | .visibility v => b.visibility v
  | .affiliation l => b.affiliation l
  | .repo_type t => b.repo_type t
  | .sort s => b.sort s
  | .asc => b.asc
  | .desc => b.desc
  | .direction d => b.direction d

/-- Run a caller program against a `RepoListOptionsBuilder`. -/
def runRepoListOps (b : RepoListOptionsBuilder) (ops : List RepoListOp) :
    RepoListOptionsBuilder :=
  ops.foldl applyRepoListOp b

/-- The key under which a `RepoListOptionsBuilder` setter stores its
value (`asc` and `desc` delegate to `direction`). -/
def repoListOpKey : RepoListOp → List Nat
  | .visibility _ => ascii ("visibility")
  | .affiliation _ => ascii ("affiliation")
  | .repo_type _ => ascii ("type")
  | .sort _ => ascii ("sort")
  | .asc => ascii ("direction")
  | .desc => ascii ("direction")
  | .direction _ => ascii ("direction")

/-- The stringified value a `RepoListOptionsBuilder` setter stores. -/
def repoListOpVal : RepoListOp → List Nat
  | .visibility v => v.display
  | .affiliation l => List.intercalate (ascii (",")) (l.map Affiliation.display)
  | .repo_type t => t.display
  | .sort s => s.display
  | .asc => SortDirection.Asc.display
  | .desc => SortDirection.Desc.display
  | .direction d => d.display

/-- The setters of `UserRepoListOptionsBuilder` (lines 646-667). -/
inductive UserRepoListOp where
  | repo_type (t : TypeKind)
  | sort (s : TypeKind)
  | asc
  | desc
  | direction (d : SortDirection)
deriving DecidableEq

/-- Apply one setter call to a `UserRepoListOptionsBuilder`. -/
def applyUserRepoListOp (b : UserRepoListOptionsBuilder) :
    UserRepoListOp → UserRepoListOptionsBuilder
  | .repo_type t => b.repo_type t
  | .sort s => b.sort s
  | .asc => b.asc
  | .desc => b.desc
  | .direction d => b.direction d

/-- Run a caller program against a `UserRepoListOptionsBuilder`. -/
def runUserRepoListOps (b : UserRepoListOptionsBuilder) (ops : List UserRepoListOp) :
    UserRepoListOptionsBuilder :=
  ops.foldl applyUserRepoListOp b

/-- The key under which a `UserRepoListOptionsBuilder` setter stores its
value. -/
def userRepoListOpKey : UserRepoListOp → List Nat
  | .repo_type _ => ascii ("type")
  | .sort _ => ascii ("sort")
  | .asc => ascii ("direction")
  | .desc => ascii ("direction")
  | .direction _ => ascii ("direction")

/-- The stringified value a `UserRepoListOptionsBuilder` setter stores. -/
def userRepoListOpVal : UserRepoListOp → List Nat
  | .repo_type t => t.display
  | .sort s => s.display
  | .asc => SortDirection.Asc.display
  | .desc => SortDirection.Desc.display
  | .direction d => d.display

/-- The setters of `OrganizationRepoListOptionsBuilder` (lines 707-710). -/
inductive OrgRepoListOp where
  | repo_type (t : OrgRepoType)
deriving DecidableEq

/-- Apply one setter call to an `OrganizationRepoListOptionsBuilder`. -/
def applyOrgRepoListOp (b : OrganizationRepoListOptionsBuilder) :
    OrgRepoListOp → OrganizationRepoListOptionsBuilder
  | .repo_type t => b.repo_type t

/-- Run a caller program against an
`OrganizationRepoListOptionsBuilder`. -/
def runOrgRepoListOps (b : OrganizationRepoListOptionsBuilder)
    (ops : List OrgRepoListOp) : OrganizationRepoListOptionsBuilder :=
  ops.foldl applyOrgRepoListOp b

/-- Key stored by an `OrganizationRepoListOptionsBuilder` setter. -/
def orgRepoListOpKey : OrgRepoListOp → List Nat
  | .repo_type _ => ascii ("type")

/-- Value stored by an `OrganizationRepoListOptionsBuilder` setter. -/
def orgRepoListOpVal : OrgRepoListOp → List Nat
  | .repo_type t => t.display

/-! ### A heap model for builder mutation and `build()` snapshots

In Rust the builder's map lives in one heap cell that `&mut self`
setters mutate in place, and `build()` (line 609) *clones* it into the
returned options value. To state snapshot independence the heap is made
explicit: a store of parameter-mapping cells, handles are cell indices,
a setter overwrites the builder's cell, and `build` copies the builder's
cell into a fresh cell owned by the options value. -/

/-- The heap: one cell per live parameter mapping. -/
structure BuilderStore where
  cells : List Params
deriving DecidableEq

/-- Read the mapping held in cell `a`. -/
def BuilderStore.read (s : BuilderStore) (a : Nat) : Params :=
  (s.cells[a]?).getD []

/-- Overwrite cell `a` in place. -/
def BuilderStore.write (s : BuilderStore) (a : Nat) (ps : Params) : BuilderStore :=
  ⟨s.cells.set a ps⟩

/-- A `&mut self` setter call on the builder living in cell `a`. -/
def applyOpAt (s : BuilderStore) (a : Nat) (op : RepoListOp) : BuilderStore :=
  s.write a (applyRepoListOp ⟨s.read a⟩ op).params

/-- Run a caller program against the builder living in cell `a`. -/
def runOpsAt (s : BuilderStore) (a : Nat) (ops : List RepoListOp) : BuilderStore :=
  ops.foldl (fun st op => applyOpAt st a op) s

/-- A `&mut self` setter call on the user-repos builder living in
cell `a`. -/
def applyUserOpAt (s : BuilderStore) (a : Nat) (op : UserRepoListOp) :
    BuilderStore :=
  s.write a (applyUserRepoListOp ⟨s.read a⟩ op).params

/-- Run a caller program against the user-repos builder living in
cell `a`. -/
def runUserOpsAt (s : BuilderStore) (a : Nat) (ops : List UserRepoListOp) :
    BuilderStore :=
  ops.foldl (fun st op => applyUserOpAt st a op) s

/-- A `&mut self` setter call on the organization-repos builder living
in cell `a`. -/
def applyOrgOpAt (s : BuilderStore) (a : Nat) (op : OrgRepoListOp) :
    BuilderStore :=
  s.write a (applyOrgRepoListOp ⟨s.read a⟩ op).params

/-- Run a caller program against the organization-repos builder living
in cell `a`. -/
def runOrgOpsAt (s : BuilderStore) (a : Nat) (ops : List OrgRepoListOp) :
    BuilderStore :=
  ops.foldl (fun st op => applyOrgOpAt st a op) s

/-- `build()` on the builder living in cell `a`: clone its mapping into
a fresh cell and hand back that cell's index (the options value). All
three builds (`RepoListOptionsBuilder::build` lines 608-610,
`UserRepoListOptionsBuilder::build` lines 669-671,
`OrganizationRepoListOptionsBuilder::build` lines 712-714) are this
same `params.clone()`. -/
def buildAt (s : BuilderStore) (a : Nat) : Nat × BuilderStore :=
  (s.cells.length, ⟨s.cells ++ [s.read a]⟩)

/-! ### Resource accessors

The shared client is external (spec section 6); its `get`/`post`
methods are oracle parameters, so an accessor method's observable
behaviour is which URI (and body) it hands to the oracle. -/

/-- `Repositories::path` (lines 142-144). -/
def Repositories.path (more : List Nat) : List Nat :=
  ascii ("/user/repos") ++ more

/-- `Repositories::list` (lines 155-161): start from the base path, push
the serialized query string if there is one, join with `?`, GET. -/
def Repositories.list {α : Type} (get : List Nat → α) (options : RepoListOptions) : α :=
  get (List.intercalate (ascii ("?"))
    ([Repositories.path (ascii (""))] ++
      (match options.serialize with
        | none => []
        | some query => [query])))

/-- `struct UserRepositories` (lines 165-168): the shared client is an
oracle, so only the owned `owner` string is state. -/
structure UserRepositories where
  owner : List Nat
deriving DecidableEq

/-- `UserRepositories::path` (lines 180-182). -/
def UserRepositories.path (u : UserRepositories) (more : List Nat) : List Nat :=
  ascii ("/users/") ++ u.owner ++ ascii ("/repos") ++ more

/-- `UserRepositories::list` (lines 185-191). -/
def UserRepositories.list {α : Type} (u : UserRepositories)
    (get : List Nat → α) (options : UserRepoListOptions) : α :=
  get (List.intercalate (ascii ("?"))
    ([u.path (ascii (""))] ++
      (match options.serialize with
        | none => []
        | some query => [query])))

/-- `struct OrganizationRepositories` (lines 195-198). -/
structure OrganizationRepositories where
  org : List Nat
deriving DecidableEq

/-- `OrganizationRepositories::path` (lines 210-212). -/
def OrganizationRepositories.path (o : OrganizationRepositories)
    (more : List Nat) : List Nat :=
  ascii ("/orgs/") ++ o.org ++ ascii ("/repos") ++ more

/-- `OrganizationRepositories::list` (lines 215-221). -/
def OrganizationRepositories.list {α : Type} (o : OrganizationRepositories)
    (get : List Nat → α) (options : OrganizationRepoListOptions) : α :=
  get (List.intercalate (ascii ("?"))
    ([o.path (ascii (""))] ++
      (match options.serialize with
        | none => []
        | some query => [query])))

/-! ### `RepoOptions` and its JSON body -/

/-- A JSON value, as far as `RepoOptions` serialization needs one. -/
inductive JVal where
  | jstr (s : List Nat)
  | jbool (b : Bool)
  | jint (n : Int)
  | jnull
deriving DecidableEq

/-- `struct RepoOptions` (lines 379-402); `private` is renamed
`private_` because it is a Lean keyword. -/
structure RepoOptions where
  name : List Nat
  description : Option (List Nat)
  homepage : Option (List Nat)
  private_ : Option Bool
  has_issues : Option Bool
  has_wiki : Option Bool
  has_downloads : Option Bool
  team_id : Option Int
  auto_init : Option Bool
  gitignore_template : Option (List Nat)
  license_template : Option (List Nat)
deriving DecidableEq

/-- One optional JSON object entry: absent when the field is unset. -/
def optPair (k : List Nat) (v : Option JVal) : List (List Nat × JVal) :=
  match v with
  | none => []
  | some j => [(k, j)]

/-- The JSON object body `serde_json::to_string` produces for a
`RepoOptions` (lines 379-402): the required `name` entry followed by one
entry per set optional field, in declaration order; every optional field
carries `skip_serializing_if` on `Option::is_none`, so an unset field
contributes no entry at all (in particular no `null`). -/
def RepoOptions.toJsonPairs (o : RepoOptions) : List (List Nat × JVal) :=
  [(ascii ("name"), JVal.jstr o.name)] ++
  optPair (ascii ("description")) (o.description.map JVal.jstr) ++
  optPair (ascii ("homepage")) (o.homepage.map JVal.jstr) ++
  optPair (ascii ("private")) (o.private_.map JVal.jbool) ++
  optPair (ascii ("has_issues")) (o.has_issues.map JVal.jbool) ++
  optPair (ascii ("has_wiki")) (o.has_wiki.map JVal.jbool) ++
  optPair (ascii ("has_downloads")) (o.has_downloads.map JVal.jbool) ++
  optPair (ascii ("team_id")) (o.team_id.map JVal.jint) ++
  optPair (ascii ("auto_init")) (o.auto_init.map JVal.jbool) ++
  optPair (ascii ("gitignore_template")) (o.gitignore_template.map JVal.jstr) ++
  optPair (ascii ("license_template")) (o.license_template.map JVal.jstr)

/-! ### Failure propagation -/

/-- Errors surfaced by the shared client (spec section 7): transport and
JSON decode failures, kept opaque here. -/
inductive GhError where
  | transport
  | decode
deriving DecidableEq

/-- What a caller observes from an operation: a decoded value, a
propagated shared-client error, or a Rust panic. -/
inductive Outcome (α : Type) where
  | ok (a : α)
  | err (e : GhError)
  | crash
deriving DecidableEq

/-- `Repositories::create` (lines 148-151): serialize the options to a
JSON body and POST it; `try!` would propagate a `serde_json` error, but
serializing this plain struct is total, so the client's outcome is
returned as is. -/
def Repositories.create {α : Type}
    (post : List Nat → List (List Nat × JVal) → Outcome α)
    (repo : RepoOptions) : Outcome α :=
  post (Repositories.path (ascii (""))) repo.toJsonPairs

/-- A parsed URL, as far as `Repo::languages` needs one. -/
structure UrlModel where
  path : List Nat
deriving DecidableEq

/-- Letter byte. -/
def isAlphaByte (b : Nat) : Bool :=
  (65 ≤ b && b ≤ 90) || (97 ≤ b && b ≤ 122)

/-- Split a byte string at its first `:`; `none` when there is none. -/
def schemeSplit : List Nat → Option (List Nat × List Nat)
  | [] => none
  | c :: rest =>
    if c = 58 then some ([], rest)
    else
      match schemeSplit rest with
      | none => none
      | some p => some (c :: p.1, p.2)

/-- Partial model of the external `url` crate's `Url::parse` as used on
`languages_url`: parsing is fallible — an absolute URL needs a
letter-led scheme before `:`, then `//`, an authority, and a path
(defaulting to `/`); anything else (for instance the empty string) is a
parse error, which the source unwraps. Only this fallibility and the
path extraction `url.path()` are modelled. -/
def urlParse (s : List Nat) : Option UrlModel :=
  match schemeSplit s with
  | none => none
  | some (scheme, rest) =>
    match scheme with
    | [] => none
    | c :: _ =>
      if isAlphaByte c then
        match rest with
        | 47 :: 47 :: tail =>
          match tail.dropWhile (fun b => b ≠ 47) with
          | [] => some ⟨ascii ("/")⟩
          | p => some ⟨p⟩
        | _ => none
      else none

/-- `Repo::languages` (lines 371-375): parse `languages_url`, `unwrap`
the result (a panic when parsing fails), and GET the URL's path. Only
the `languages_url` field of the deserialized `Repo` is read, so it is
the one piece of `Repo` state modelled. -/
def Repo.languages {α : Type} (get : List Nat → Outcome α)
    (languagesUrl : List Nat) : Outcome α :=
  match urlParse languagesUrl with
  | none => Outcome.crash
  | some u => get u.path

/-! ### Token sets for the type-confusion invariant -/

/-- The four strings `Sort` variants display to (sort-field tokens). -/
def sortTokens : List (List Nat) :=
  [ascii ("created"), ascii ("updated"), ascii ("pushed"), ascii ("full_name")]

/-- The five strings `Type` variants display to (repository-type
tokens). -/
def typeTokens : List (List Nat) :=
  [ascii ("all"), ascii ("owner"), ascii ("public"), ascii ("private"),
    ascii ("member")]

/-! ### Round trip of the form-urlencoded serializer -/

/-- A parameter mapping is well formed when every key and value byte is
an actual byte (below 256). Every mapping reachable through the builders
is well formed (keys and enum tokens are ASCII). -/
def wfParams (ps : Params) : Prop :=
  ∀ p ∈ ps, (∀ b ∈ p.1, b < 256) ∧ (∀ b ∈ p.2, b < 256)

instance (ps : Params) : Decidable (wfParams ps) :=
  inferInstanceAs
    (Decidable (∀ p ∈ ps, (∀ b ∈ p.1, b < 256) ∧ (∀ b ∈ p.2, b < 256)))

theorem hexDig_round : ∀ n, n < 16 → isHexByte (hexDig n) = true ∧ hexVal (hexDig n) = n := by
  decide

theorem hexDig_ne_sep : ∀ n, n < 16 → hexDig n ≠ 38 ∧ hexDig n ≠ 61 := by
  decide

theorem isSafeByte_ne {b : Nat} (hs : isSafeByte b = true) :
    b ≠ 43 ∧ b ≠ 37 ∧ b ≠ 38 ∧ b ≠ 61 := by
  refine ⟨?_, ?_, ?_, ?_⟩ <;> (rintro rfl; exact absurd hs (by decide))

theorem encodeBytes_cons (b : Nat) (s : List Nat) :
    encodeBytes (b :: s) = encodeByte b ++ encodeBytes s := by
  simp [encodeBytes]

theorem decodeBytes_other {c : Nat} (rest : List Nat) (h43 : c ≠ 43) (h37 : c ≠ 37) :
    decodeBytes (c :: rest) = c :: decodeBytes rest := by
  rw [decodeBytes.eq_def]
  split <;> simp_all

theorem decodeBytes_encodeByte {b : Nat} (hb : b < 256) (t : List Nat) :
    decodeBytes (encodeByte b ++ t) = b :: decodeBytes t := by
  rw [encodeByte]
  by_cases h32 : b = 32
  · subst h32
    simp [decodeBytes]
  · rw [if_neg h32]
    by_cases hsafe : isSafeByte b
    · rw [if_pos hsafe]
      exact decodeBytes_other t (isSafeByte_ne hsafe).1 (isSafeByte_ne hsafe).2.1
    · rw [if_neg hsafe]
      have hd1 := hexDig_round (b / 16) (by omega)
      have hd2 := hexDig_round (b % 16) (by omega)
      show decodeBytes (37 :: hexDig (b / 16) :: hexDig (b % 16) :: t) = _
      rw [decodeBytes]
      rw [if_pos (by simp [hd1.1, hd2.1])]
      rw [hd1.2, hd2.2]
      have hb16 : 16 * (b / 16) + b % 16 = b := by omega
      rw [hb16]

theorem decodeBytes_encodeBytes (s : List Nat) (hs : ∀ b ∈ s, b < 256) :
    decodeBytes (encodeBytes s) = s := by
  induction s with
  | nil => rfl
  | cons b t ih =>
    rw [encodeBytes_cons, decodeBytes_encodeByte (hs b (by simp))]
    rw [ih (fun x hx => hs x (by simp [hx]))]

theorem mem_encodeByte_ne_sep {b : Nat} (hb : b < 256) :
    ∀ c ∈ encodeByte b, c ≠ 38 ∧ c ≠ 61 := by
  intro c hc
  rw [encodeByte] at hc
  by_cases h32 : b = 32
  · rw [if_pos h32] at hc
    simp at hc
    subst hc
    exact ⟨by decide, by decide⟩
  · rw [if_neg h32] at hc
    by_cases hsafe : isSafeByte b
    · rw [if_pos hsafe] at hc
      simp at hc
      subst hc
      exact ⟨(isSafeByte_ne hsafe).2.2.1, (isSafeByte_ne hsafe).2.2.2⟩
    · rw [if_neg hsafe] at hc
      simp at hc
      rcases hc with rfl | rfl | rfl
      · exact ⟨by decide, by decide⟩
      · exact hexDig_ne_sep (b / 16) (by omega)
      · exact hexDig_ne_sep (b % 16) (by omega)

theorem mem_encodeBytes_ne_sep {s : List Nat} (hs : ∀ b ∈ s, b < 256) :
    ∀ c ∈ encodeBytes s, c ≠ 38 ∧ c ≠ 61 := by
  intro c hc
  rw [encodeBytes] at hc
  rw [List.mem_flatten] at hc
  obtain ⟨l, hl, hcl⟩ := hc
  rw [List.mem_map] at hl
  obtain ⟨b, hb, rfl⟩ := hl
  exact mem_encodeByte_ne_sep (hs b hb) c hcl

theorem splitEq_append {a : List Nat} (bts : List Nat) (ha : ∀ c ∈ a, c ≠ 61) :
    splitEq (a ++ 61 :: bts) = (a, bts) := by
  induction a with
  | nil => simp [splitEq]
  | cons c t ih =>
    have hc : c ≠ 61 := ha c (by simp)
    rw [List.cons_append, splitEq, if_neg hc]
    rw [ih (fun x hx => ha x (by simp [hx]))]

theorem decodePiece_serializePair {p : List Nat × List Nat}
    (h1 : ∀ b ∈ p.1, b < 256) (h2 : ∀ b ∈ p.2, b < 256) :
    decodePiece (serializePair p) = p := by
  rw [serializePair, decodePiece]
  rw [splitEq_append _ (fun c hc => (mem_encodeBytes_ne_sep h1 c hc).2)]
  simp only
  rw [decodeBytes_encodeBytes _ h1, decodeBytes_encodeBytes _ h2]

theorem serializePair_ne_nil (p : List Nat × List Nat) : serializePair p ≠ [] := by
  simp [serializePair]

theorem amp_notin_serializePair {p : List Nat × List Nat}
    (h1 : ∀ b ∈ p.1, b < 256) (h2 : ∀ b ∈ p.2, b < 256) :
    (38 : Nat) ∉ serializePair p := by
  intro hmem
  rw [serializePair] at hmem
  rcases List.mem_append.mp hmem with h | h
  · exact (mem_encodeBytes_ne_sep h1 38 h).1 rfl
  · rcases List.mem_cons.mp h with h61 | h
    · exact absurd h61 (by decide)
    · exact (mem_encodeBytes_ne_sep h2 38 h).1 rfl

theorem splitSep_ne_nil (sep : Nat) (s : List Nat) : splitSep sep s ≠ [] := by
  induction s with
  | nil => simp [splitSep]
  | cons c t ih =>
    rw [splitSep]
    cases h : splitSep sep t with
    | nil => exact absurd h ih
    | cons a l =>
      by_cases hc : c = sep <;> simp [hc]

theorem splitSep_no_sep {sep : Nat} {a : List Nat} (ha : sep ∉ a) :
    splitSep sep a = [a] := by
  induction a with
  | nil => rfl
  | cons c t ih =>
    have hc : c ≠ sep := fun h => ha (by simp [h])
    rw [splitSep, ih (fun h => ha (by simp [h]))]
    simp [hc]

theorem splitSep_append {sep : Nat} {a : List Nat} (r : List Nat) (ha : sep ∉ a) :
    splitSep sep (a ++ sep :: r) = a :: splitSep sep r := by
  induction a with
  | nil =>
    simp only [List.nil_append, splitSep]
    cases h : splitSep sep r with
    | nil => exact absurd h (splitSep_ne_nil sep r)
    | cons x l => simp
  | cons c t ih =>
    have hc : c ≠ sep := fun h => ha (by simp [h])
    rw [List.cons_append, splitSep]
    rw [ih (fun h => ha (by simp [h]))]
    simp [hc]

theorem intercalate_cons_cons {α : Type} (s a b : List α) (t : List (List α)) :
    List.intercalate s (a :: b :: t) = a ++ s ++ List.intercalate s (b :: t) := by
  simp only [List.intercalate, List.intersperse_cons_cons, List.flatten, List.append_assoc]

theorem intercalate_single {α : Type} (s a : List α) :
    List.intercalate s [a] = a := by
  simp [List.intercalate]

theorem splitSep_intercalate {sep : Nat} {l : List (List Nat)} (hne : l ≠ [])
    (h : ∀ a ∈ l, sep ∉ a) :
    splitSep sep (List.intercalate [sep] l) = l := by
  induction l with
  | nil => exact absurd rfl hne
  | cons a t ih =>
    cases t with
    | nil =>
      rw [intercalate_single]
      exact splitSep_no_sep (h a (by simp))
    | cons b t2 =>
      rw [intercalate_cons_cons, List.append_assoc, List.singleton_append]
      rw [splitSep_append _ (h a (by simp))]
      rw [ih (by simp) (fun x hx => h x (by simp [hx]))]

/-- Core round trip: for a non-empty well-formed mapping, the serialized
query string decodes back to exactly the stored (key, value) pairs. -/
theorem decodeQuery_serializeParams {ps : Params} (hwf : wfParams ps) (hne : ps ≠ []) :
    ∃ q, serializeParams ps = some q ∧ decodeQuery q = ps := by
  refine ⟨_, by rw [serializeParams, if_neg hne], ?_⟩
  rw [decodeQuery]
  rw [splitSep_intercalate (by simpa using hne) ?hsep]
  case hsep =>
    intro a ha
    rw [List.mem_map] at ha
    obtain ⟨p, hp, rfl⟩ := ha
    exact amp_notin_serializePair (hwf p hp).1 (hwf p hp).2
  rw [List.filter_eq_self.mpr ?hfil]
  case hfil =>
    intro a ha
    rw [List.mem_map] at ha
    obtain ⟨p, _, rfl⟩ := ha
    simpa using serializePair_ne_nil p
  rw [List.map_map]
  have hmap : List.map (decodePiece ∘ serializePair) ps = List.map id ps :=
    List.map_congr_left (fun p hp => decodePiece_serializePair (hwf p hp).1 (hwf p hp).2)
  rw [hmap, List.map_id]

/-- C1: for every options value with a non-empty well-formed parameter
mapping, `serialize` returns a form-urlencoded query string that decodes
back to exactly the stored (key, value) pairs (proved as list equality,
which entails the claim's order-independent set equality); in
particular, the builder scenario visibility = Private, direction = Desc
serializes to a string decoding to exactly the pairs
("visibility", "private") and ("direction", "desc"). -/
theorem claim_C1 :
    (∀ o : RepoListOptions, wfParams o.params → o.params ≠ [] →
      ∃ q, o.serialize = some q ∧ decodeQuery q = o.params) ∧
    (∀ o : UserRepoListOptions, wfParams o.params → o.params ≠ [] →
      ∃ q, o.serialize = some q ∧ decodeQuery q = o.params) ∧
    (∀ o : OrganizationRepoListOptions, wfParams o.params → o.params ≠ [] →
      ∃ q, o.serialize = some q ∧ decodeQuery q = o.params) ∧
    (∃ q,
      ((RepoListOptionsBuilder.new.visibility Visibility.Private).direction
          SortDirection.Desc).build.serialize = some q ∧
        decodeQuery q =
          [(ascii ("visibility"), ascii ("private")),
            (ascii ("direction"), ascii ("desc"))]) :=
  ⟨fun _ hwf hne => decodeQuery_serializeParams hwf hne,
   fun _ hwf hne => decodeQuery_serializeParams hwf hne,
   fun _ hwf hne => decodeQuery_serializeParams hwf hne,
   ⟨ascii ("visibility=private&direction=desc"), by decide, by decide⟩⟩

/-- Witness for C1 at a mapping whose value contains a space and an
ampersand, exercising the percent-encoding. -/
theorem claim_C1_witness :
    ∃ q, (RepoListOptions.mk [(ascii ("a"), ascii ("b c&d"))]).serialize = some q ∧
      decodeQuery q = [(ascii ("a"), ascii ("b c&d"))] :=
  claim_C1.1 (RepoListOptions.mk [(ascii ("a"), ascii ("b c&d"))])
    (by decide) (by decide)

theorem intercalate_cons_ne_nil {α : Type} (s a : List α) (l : List (List α))
    (ha : a ≠ []) : List.intercalate s (a :: l) ≠ [] := by
  cases l with
  | nil => rw [intercalate_single]; exact ha
  | cons b t =>
    rw [intercalate_cons_cons]
    simp [List.append_eq_nil, ha]

theorem serializeParams_eq_none_iff (ps : Params) :
    serializeParams ps = none ↔ ps = [] := by
  rw [serializeParams]
  by_cases h : ps = [] <;> simp [h]

theorem serializeParams_some_ne_nil {ps : Params} {q : List Nat}
    (h : serializeParams ps = some q) : q ≠ [] := by
  rw [serializeParams] at h
  by_cases hne : ps = []
  · rw [if_pos hne] at h
    exact absurd h (by simp)
  · rw [if_neg hne, Option.some_inj] at h
    subst h
    cases ps with
    | nil => exact absurd rfl hne
    | cons p t =>
      rw [List.map_cons]
      exact intercalate_cons_ne_nil _ _ _ (serializePair_ne_nil p)

/-- C2: `serialize` returns `none` exactly when the parameter mapping is
empty, and a returned query string is never the empty string. -/
theorem claim_C2 (o1 : RepoListOptions) (o2 : UserRepoListOptions)
    (o3 : OrganizationRepoListOptions) :
    (o1.serialize = none ↔ o1.params = []) ∧
    (∀ q, o1.serialize = some q → q ≠ []) ∧
    (o2.serialize = none ↔ o2.params = []) ∧
    (∀ q, o2.serialize = some q → q ≠ []) ∧
    (o3.serialize = none ↔ o3.params = []) ∧
    (∀ q, o3.serialize = some q → q ≠ []) :=
  ⟨serializeParams_eq_none_iff _, fun _ h => serializeParams_some_ne_nil h,
   serializeParams_eq_none_iff _, fun _ h => serializeParams_some_ne_nil h,
   serializeParams_eq_none_iff _, fun _ h => serializeParams_some_ne_nil h⟩

/-- Witness for C2: the some-hypothesis discharged at a one-parameter
options value. -/
theorem claim_C2_witness :
    ((RepoListOptions.mk []).serialize = none ↔
      (RepoListOptions.mk []).params = []) ∧
    ascii ("visibility=all") ≠ [] :=
  ⟨(claim_C2 (RepoListOptions.mk []) (UserRepoListOptions.mk [])
      (OrganizationRepoListOptions.mk [])).1,
   (claim_C2 ((RepoListOptionsBuilder.new.visibility Visibility.All).build)
      (UserRepoListOptions.mk []) (OrganizationRepoListOptions.mk [])).2.1
      (ascii ("visibility=all")) (by decide)⟩

/-! ### Map operations and setter normal forms -/

theorem insertP_insertP (ps : Params) (k v1 v2 : List Nat) :
    insertP (insertP ps k v1) k v2 = insertP ps k v2 := by
  induction ps with
  | nil => simp [insertP]
  | cons p t ih =>
    by_cases h : p.1 = k
    · simp [insertP, h]
    · simp [insertP, h, ih]

theorem lookupP_insertP_self (ps : Params) (k v : List Nat) :
    lookupP (insertP ps k v) k = some v := by
  induction ps with
  | nil => simp [insertP, lookupP]
  | cons p t ih =>
    by_cases h : p.1 = k
    · simp [insertP, h, lookupP]
    · simp [insertP, h, lookupP, ih]

theorem lookupP_insertP_ne (ps : Params) {k k' : List Nat} (v : List Nat)
    (h : k ≠ k') : lookupP (insertP ps k v) k' = lookupP ps k' := by
  induction ps with
  | nil => simp [insertP, lookupP, h]
  | cons p t ih =>
    by_cases hp : p.1 = k
    · have hp' : p.1 ≠ k' := hp ▸ h
      simp [insertP, hp, lookupP, h, hp']
    · by_cases hk' : p.1 = k'
      · simp [insertP, hp, lookupP, hk', h.symm]
      · simp [insertP, hp, lookupP, hk', ih]

theorem repoBuilder_ext {a b : RepoListOptionsBuilder}
    (h : a.params = b.params) : a = b := by
  cases a; cases b; cases h; rfl

theorem userBuilder_ext {a b : UserRepoListOptionsBuilder}
    (h : a.params = b.params) : a = b := by
  cases a; cases b; cases h; rfl

theorem orgBuilder_ext {a b : OrganizationRepoListOptionsBuilder}
    (h : a.params = b.params) : a = b := by
  cases a; cases b; cases h; rfl

/-- Every `RepoListOptionsBuilder` setter is an overwriting insert at
its key. -/
theorem applyRepoListOp_params (b : RepoListOptionsBuilder) (op : RepoListOp) :
    (applyRepoListOp b op).params =
      insertP b.params (repoListOpKey op) (repoListOpVal op) := by
  cases op <;> rfl

/-- Every `UserRepoListOptionsBuilder` setter is an overwriting insert
at its key. -/
theorem applyUserRepoListOp_params (b : UserRepoListOptionsBuilder)
    (op : UserRepoListOp) :
    (applyUserRepoListOp b op).params =
      insertP b.params (userRepoListOpKey op) (userRepoListOpVal op) := by
  cases op <;> rfl

/-- The `OrganizationRepoListOptionsBuilder` setter is an overwriting
insert at its key. -/
theorem applyOrgRepoListOp_params (b : OrganizationRepoListOptionsBuilder)
    (op : OrgRepoListOp) :
    (applyOrgRepoListOp b op).params =
      insertP b.params (orgRepoListOpKey op) (orgRepoListOpVal op) := by
  cases op
  rfl

/-- C4: on every builder, calling two setters that target the same key
(in particular the same setter twice with different values) leaves the
builder exactly as if only the second call had happened — overwrite, no
accumulation — and the built options holds the second value under that
key. Stated for all three builder families. -/
theorem claim_C4 (b1 : RepoListOptionsBuilder) (op1 op2 : RepoListOp)
    (hk : repoListOpKey op1 = repoListOpKey op2)
    (b2 : UserRepoListOptionsBuilder) (uop1 uop2 : UserRepoListOp)
    (huk : userRepoListOpKey uop1 = userRepoListOpKey uop2)
    (b3 : OrganizationRepoListOptionsBuilder) (oop1 oop2 : OrgRepoListOp)
    (hok : orgRepoListOpKey oop1 = orgRepoListOpKey oop2) :
    (applyRepoListOp (applyRepoListOp b1 op1) op2 = applyRepoListOp b1 op2 ∧
      lookupP ((applyRepoListOp (applyRepoListOp b1 op1) op2).build).params
        (repoListOpKey op2) = some (repoListOpVal op2)) ∧
    (applyUserRepoListOp (applyUserRepoListOp b2 uop1) uop2 =
        applyUserRepoListOp b2 uop2 ∧
      lookupP ((applyUserRepoListOp (applyUserRepoListOp b2 uop1) uop2).build).params
        (userRepoListOpKey uop2) = some (userRepoListOpVal uop2)) ∧
    (applyOrgRepoListOp (applyOrgRepoListOp b3 oop1) oop2 =
        applyOrgRepoListOp b3 oop2 ∧
      lookupP ((applyOrgRepoListOp (applyOrgRepoListOp b3 oop1) oop2).build).params
        (orgRepoListOpKey oop2) = some (orgRepoListOpVal oop2)) := by
  refine ⟨⟨?_, ?_⟩, ⟨?_, ?_⟩, ⟨?_, ?_⟩⟩
  · refine repoBuilder_ext ?_
    rw [applyRepoListOp_params, applyRepoListOp_params, applyRepoListOp_params,
      hk, insertP_insertP]
  · show lookupP (applyRepoListOp (applyRepoListOp b1 op1) op2).params _ = _
    rw [applyRepoListOp_params, lookupP_insertP_self]
  · refine userBuilder_ext ?_
    rw [applyUserRepoListOp_params, applyUserRepoListOp_params,
      applyUserRepoListOp_params, huk, insertP_insertP]
  · show lookupP (applyUserRepoListOp (applyUserRepoListOp b2 uop1) uop2).params _ = _
    rw [applyUserRepoListOp_params, lookupP_insertP_self]
  · refine orgBuilder_ext ?_
    rw [applyOrgRepoListOp_params, applyOrgRepoListOp_params,
      applyOrgRepoListOp_params, hok, insertP_insertP]
  · show lookupP (applyOrgRepoListOp (applyOrgRepoListOp b3 oop1) oop2).params _ = _
    rw [applyOrgRepoListOp_params, lookupP_insertP_self]

/-- Witness for C4: the `visibility` setter called twice (All then
Private) equals a single call with Private, on each builder family's
representative setter. -/
theorem claim_C4_witness :
    applyRepoListOp
        (applyRepoListOp (RepoListOptionsBuilder.mk [])
          (RepoListOp.visibility Visibility.All))
        (RepoListOp.visibility Visibility.Private) =
      applyRepoListOp (RepoListOptionsBuilder.mk [])
        (RepoListOp.visibility Visibility.Private) :=
  (claim_C4 (RepoListOptionsBuilder.mk [])
    (RepoListOp.visibility Visibility.All)
    (RepoListOp.visibility Visibility.Private) (by decide)
    (UserRepoListOptionsBuilder.mk [])
    (UserRepoListOp.sort TypeKind.All) (UserRepoListOp.sort TypeKind.Member)
    (by decide)
    (OrganizationRepoListOptionsBuilder.mk [])
    (OrgRepoListOp.repo_type OrgRepoType.All)
    (OrgRepoListOp.repo_type OrgRepoType.Forks) (by decide)).1.1

/-- C5: the `affiliation` setter stores the comma-join of the displayed
values in exactly the caller's order; `[Owner, Collaborator]` stores
exactly `owner,collaborator`, and reordering the input changes the
serialized output. -/
theorem claim_C5 (b : RepoListOptionsBuilder) (l : List Affiliation) :
    lookupP (b.affiliation l).params (ascii ("affiliation")) =
      some (List.intercalate (ascii (",")) (l.map Affiliation.display)) ∧
    lookupP ((RepoListOptionsBuilder.new.affiliation
        [Affiliation.Owner, Affiliation.Collaborator]).build).params
      (ascii ("affiliation")) = some (ascii ("owner,collaborator")) ∧
    (RepoListOptionsBuilder.new.affiliation
        [Affiliation.Owner, Affiliation.Collaborator]).build.serialize ≠
      (RepoListOptionsBuilder.new.affiliation
        [Affiliation.Collaborator, Affiliation.Owner]).build.serialize := by
  refine ⟨?_, by decide, by decide⟩
  rw [RepoListOptionsBuilder.affiliation]
  exact lookupP_insertP_self _ _ _

/-- Witness for C5 on a singleton affiliation list. -/
theorem claim_C5_witness :
    lookupP ((RepoListOptionsBuilder.mk []).affiliation
        [Affiliation.OrganizationMember]).params (ascii ("affiliation")) =
      some (List.intercalate (ascii (","))
        ([Affiliation.OrganizationMember].map Affiliation.display)) :=
  (claim_C5 (RepoListOptionsBuilder.mk []) [Affiliation.OrganizationMember]).1

/-! ### Heap facts for `build()` snapshots -/

theorem read_write_self (s : BuilderStore) {a : Nat} (ha : a < s.cells.length)
    (ps : Params) : (s.write a ps).read a = ps := by
  rw [BuilderStore.write, BuilderStore.read]
  simp [List.getElem?_set_eq_of_lt _ ha]

theorem read_write_other (s : BuilderStore) {a b : Nat} (hab : a ≠ b)
    (ps : Params) : (s.write a ps).read b = s.read b := by
  rw [BuilderStore.write, BuilderStore.read, BuilderStore.read]
  simp [List.getElem?_set_ne hab]

theorem read_concat_self (s : BuilderStore) (x : Params) :
    (BuilderStore.mk (s.cells ++ [x])).read s.cells.length = x := by
  rw [BuilderStore.read]
  simp [List.getElem?_concat_length]

theorem read_concat_lt (s : BuilderStore) {b : Nat} (hb : b < s.cells.length)
    (x : Params) : (BuilderStore.mk (s.cells ++ [x])).read b = s.read b := by
  rw [BuilderStore.read, BuilderStore.read]
  simp [List.getElem?_append_left hb]

theorem applyOpAt_length (s : BuilderStore) (a : Nat) (op : RepoListOp) :
    (applyOpAt s a op).cells.length = s.cells.length := by
  rw [applyOpAt, BuilderStore.write]
  simp

theorem runOpsAt_length (ops : List RepoListOp) (s : BuilderStore) (a : Nat) :
    (runOpsAt s a ops).cells.length = s.cells.length := by
  induction ops generalizing s with
  | nil => rfl
  | cons op t ih =>
    show (runOpsAt (applyOpAt s a op) a t).cells.length = _
    rw [ih, applyOpAt_length]

theorem runOpsAt_read_other (ops : List RepoListOp) (s : BuilderStore)
    {a b : Nat} (hab : a ≠ b) : (runOpsAt s a ops).read b = s.read b := by
  induction ops generalizing s with
  | nil => rfl
  | cons op t ih =>
    show (runOpsAt (applyOpAt s a op) a t).read b = _
    rw [ih, applyOpAt, read_write_other s hab]

theorem runOpsAt_read_self (ops : List RepoListOp) (s : BuilderStore)
    {a : Nat} (ha : a < s.cells.length) :
    (runOpsAt s a ops).read a =
      (runRepoListOps (RepoListOptionsBuilder.mk (s.read a)) ops).params := by
  induction ops generalizing s with
  | nil => rfl
  | cons op t ih =>
    show (runOpsAt (applyOpAt s a op) a t).read a = _
    rw [ih _ (by rw [applyOpAt_length]; exact ha)]
    have hr : (applyOpAt s a op).read a =
        (applyRepoListOp (RepoListOptionsBuilder.mk (s.read a)) op).params := by
      rw [applyOpAt, read_write_self s ha]
    rw [hr]
    show (runRepoListOps (RepoListOptionsBuilder.mk
      (applyRepoListOp (RepoListOptionsBuilder.mk (s.read a)) op).params) t).params = _
    rw [repoBuilder_ext
      (a := RepoListOptionsBuilder.mk
        (applyRepoListOp (RepoListOptionsBuilder.mk (s.read a)) op).params)
      (b := applyRepoListOp (RepoListOptionsBuilder.mk (s.read a)) op) rfl]
    rfl

theorem applyUserOpAt_length (s : BuilderStore) (a : Nat) (op : UserRepoListOp) :
    (applyUserOpAt s a op).cells.length = s.cells.length := by
  rw [applyUserOpAt, BuilderStore.write]
  simp

theorem runUserOpsAt_read_other (ops : List UserRepoListOp) (s : BuilderStore)
    {a b : Nat} (hab : a ≠ b) : (runUserOpsAt s a ops).read b = s.read b := by
  induction ops generalizing s with
  | nil => rfl
  | cons op t ih =>
    show (runUserOpsAt (applyUserOpAt s a op) a t).read b = _
    rw [ih, applyUserOpAt, read_write_other s hab]

theorem runUserOpsAt_read_self (ops : List UserRepoListOp) (s : BuilderStore)
    {a : Nat} (ha : a < s.cells.length) :
    (runUserOpsAt s a ops).read a =
      (runUserRepoListOps (UserRepoListOptionsBuilder.mk (s.read a)) ops).params := by
  induction ops generalizing s with
  | nil => rfl
  | cons op t ih =>
    show (runUserOpsAt (applyUserOpAt s a op) a t).read a = _
    rw [ih _ (by rw [applyUserOpAt_length]; exact ha)]
    have hr : (applyUserOpAt s a op).read a =
        (applyUserRepoListOp (UserRepoListOptionsBuilder.mk (s.read a)) op).params := by
      rw [applyUserOpAt, read_write_self s ha]
    rw [hr]
    show (runUserRepoListOps (UserRepoListOptionsBuilder.mk
      (applyUserRepoListOp (UserRepoListOptionsBuilder.mk (s.read a)) op).params)
        t).params = _
    rw [userBuilder_ext
      (a := UserRepoListOptionsBuilder.mk
        (applyUserRepoListOp (UserRepoListOptionsBuilder.mk (s.read a)) op).params)
      (b := applyUserRepoListOp (UserRepoListOptionsBuilder.mk (s.read a)) op) rfl]
    rfl

theorem applyOrgOpAt_length (s : BuilderStore) (a : Nat) (op : OrgRepoListOp) :
    (applyOrgOpAt s a op).cells.length = s.cells.length := by
  rw [applyOrgOpAt, BuilderStore.write]
  simp

theorem runOrgOpsAt_read_other (ops : List OrgRepoListOp) (s : BuilderStore)
    {a b : Nat} (hab : a ≠ b) : (runOrgOpsAt s a ops).read b = s.read b := by
  induction ops generalizing s with
  | nil => rfl
  | cons op t ih =>
    show (runOrgOpsAt (applyOrgOpAt s a op) a t).read b = _
    rw [ih, applyOrgOpAt, read_write_other s hab]

theorem runOrgOpsAt_read_self (ops : List OrgRepoListOp) (s : BuilderStore)
    {a : Nat} (ha : a < s.cells.length) :
    (runOrgOpsAt s a ops).read a =
      (runOrgRepoListOps (OrganizationRepoListOptionsBuilder.mk (s.read a))
        ops).params := by
  induction ops generalizing s with
  | nil => rfl
  | cons op t ih =>
    show (runOrgOpsAt (applyOrgOpAt s a op) a t).read a = _
    rw [ih _ (by rw [applyOrgOpAt_length]; exact ha)]
    have hr : (applyOrgOpAt s a op).read a =
        (applyOrgRepoListOp (OrganizationRepoListOptionsBuilder.mk (s.read a))
          op).params := by
      rw [applyOrgOpAt, read_write_self s ha]
    rw [hr]
    show (runOrgRepoListOps (OrganizationRepoListOptionsBuilder.mk
      (applyOrgRepoListOp (OrganizationRepoListOptionsBuilder.mk (s.read a))
        op).params) t).params = _
    rw [orgBuilder_ext
      (a := OrganizationRepoListOptionsBuilder.mk
        (applyOrgRepoListOp (OrganizationRepoListOptionsBuilder.mk (s.read a))
          op).params)
      (b := applyOrgRepoListOp (OrganizationRepoListOptionsBuilder.mk (s.read a))
        op) rfl]
    rfl

/-- C3: for every builder family, `build()` is side-effect-free on the
builder (its cell is untouched), snapshots the builder's current
mapping into a fresh cell, is repeatable, and the snapshot is
independent: after any further caller program against the builder — for
`RepoListOptionsBuilder`, `UserRepoListOptionsBuilder` and
`OrganizationRepoListOptionsBuilder` alike — the snapshot cell, hence
its serialized output, still holds the mapping from build time, while
the builder itself evolves exactly as the pure setter semantics
dictates. -/
theorem claim_C3 (s : BuilderStore) (a : Nat) (ha : a < s.cells.length)
    (ops1 : List RepoListOp) (ops2 : List UserRepoListOp)
    (ops3 : List OrgRepoListOp) :
    ((buildAt s a).2.read a = s.read a) ∧
    ((buildAt s a).2.read (buildAt s a).1 = s.read a) ∧
    ((buildAt (buildAt s a).2 a).2.read (buildAt (buildAt s a).2 a).1 =
      s.read a) ∧
    ((runOpsAt (buildAt s a).2 a ops1).read (buildAt s a).1 = s.read a) ∧
    (serializeParams ((runOpsAt (buildAt s a).2 a ops1).read (buildAt s a).1) =
      serializeParams (s.read a)) ∧
    ((runOpsAt (buildAt s a).2 a ops1).read a =
      (runRepoListOps (RepoListOptionsBuilder.mk (s.read a)) ops1).params) ∧
    ((runUserOpsAt (buildAt s a).2 a ops2).read (buildAt s a).1 = s.read a) ∧
    (serializeParams ((runUserOpsAt (buildAt s a).2 a ops2).read
        (buildAt s a).1) = serializeParams (s.read a)) ∧
    ((runUserOpsAt (buildAt s a).2 a ops2).read a =
      (runUserRepoListOps (UserRepoListOptionsBuilder.mk (s.read a))
        ops2).params) ∧
    ((runOrgOpsAt (buildAt s a).2 a ops3).read (buildAt s a).1 = s.read a) ∧
    (serializeParams ((runOrgOpsAt (buildAt s a).2 a ops3).read
        (buildAt s a).1) = serializeParams (s.read a)) ∧
    ((runOrgOpsAt (buildAt s a).2 a ops3).read a =
      (runOrgRepoListOps (OrganizationRepoListOptionsBuilder.mk (s.read a))
        ops3).params) := by
  have h1 : (buildAt s a).2.read a = s.read a := read_concat_lt s ha _
  have h2 : (buildAt s a).2.read (buildAt s a).1 = s.read a :=
    read_concat_self s _
  have hne : a ≠ (buildAt s a).1 := Nat.ne_of_lt ha
  have h3 : (runOpsAt (buildAt s a).2 a ops1).read (buildAt s a).1 = s.read a := by
    rw [runOpsAt_read_other ops1 _ hne, h2]
  have h3u : (runUserOpsAt (buildAt s a).2 a ops2).read (buildAt s a).1 =
      s.read a := by
    rw [runUserOpsAt_read_other ops2 _ hne, h2]
  have h3o : (runOrgOpsAt (buildAt s a).2 a ops3).read (buildAt s a).1 =
      s.read a := by
    rw [runOrgOpsAt_read_other ops3 _ hne, h2]
  have ha2 : a < (buildAt s a).2.cells.length := by
    show a < (s.cells ++ [s.read a]).length
    simp only [List.length_append, List.length_cons, List.length_nil]
    omega
  refine ⟨h1, h2, ?_, h3, by rw [h3], ?_, h3u, by rw [h3u], ?_, h3o,
    by rw [h3o], ?_⟩
  · show (BuilderStore.mk ((buildAt s a).2.cells ++ [(buildAt s a).2.read a])).read
        (buildAt s a).2.cells.length = s.read a
    rw [read_concat_self, h1]
  · rw [runOpsAt_read_self ops1 _ ha2, h1]
  · rw [runUserOpsAt_read_self ops2 _ ha2, h1]
  · rw [runOrgOpsAt_read_self ops3 _ ha2, h1]

/-- Witness for C3: one cell, one snapshot, one later setter call on
each of the three builder families. -/
theorem claim_C3_witness :
    (serializeParams
        ((runOpsAt (buildAt (BuilderStore.mk [[]]) 0).2 0
            [RepoListOp.visibility Visibility.Public]).read
          (buildAt (BuilderStore.mk [[]]) 0).1) =
      serializeParams ((BuilderStore.mk [[]]).read 0)) ∧
    (serializeParams
        ((runUserOpsAt (buildAt (BuilderStore.mk [[]]) 0).2 0
            [UserRepoListOp.repo_type TypeKind.All]).read
          (buildAt (BuilderStore.mk [[]]) 0).1) =
      serializeParams ((BuilderStore.mk [[]]).read 0)) ∧
    (serializeParams
        ((runOrgOpsAt (buildAt (BuilderStore.mk [[]]) 0).2 0
            [OrgRepoListOp.repo_type OrgRepoType.Forks]).read
          (buildAt (BuilderStore.mk [[]]) 0).1) =
      serializeParams ((BuilderStore.mk [[]]).read 0)) :=
  ⟨(claim_C3 (BuilderStore.mk [[]]) 0 (by decide)
      [RepoListOp.visibility Visibility.Public]
      [UserRepoListOp.repo_type TypeKind.All]
      [OrgRepoListOp.repo_type OrgRepoType.Forks]).2.2.2.2.1,
   (claim_C3 (BuilderStore.mk [[]]) 0 (by decide)
      [RepoListOp.visibility Visibility.Public]
      [UserRepoListOp.repo_type TypeKind.All]
      [OrgRepoListOp.repo_type OrgRepoType.Forks]).2.2.2.2.2.2.2.1,
   (claim_C3 (BuilderStore.mk [[]]) 0 (by decide)
      [RepoListOp.visibility Visibility.Public]
      [UserRepoListOp.repo_type TypeKind.All]
      [OrgRepoListOp.repo_type OrgRepoType.Forks]).2.2.2.2.2.2.2.2.2.2.1⟩

/-! ### URIs issued by the accessors -/

theorem intercalate_pair {α : Type} (s a b : List α) :
    List.intercalate s [a, b] = a ++ s ++ b := by
  rw [intercalate_cons_cons, intercalate_single]

/-- C7: each accessor list method builds its base path from the held
identifiers and GETs exactly that path when `serialize` returns `none`,
or the path, a `?`, and the query string when it returns a value. -/
theorem claim_C7 {α : Type} (get : List Nat → α) (o1 : RepoListOptions)
    (u : UserRepositories) (o2 : UserRepoListOptions)
    (org : OrganizationRepositories) (o3 : OrganizationRepoListOptions) :
    (Repositories.path (ascii ("")) = ascii ("/user/repos")) ∧
    (u.path (ascii ("")) = ascii ("/users/") ++ u.owner ++ ascii ("/repos")) ∧
    (org.path (ascii ("")) = ascii ("/orgs/") ++ org.org ++ ascii ("/repos")) ∧
    (Repositories.list get o1 = get (match o1.serialize with
      | none => Repositories.path (ascii (""))
      | some q => Repositories.path (ascii ("")) ++ ascii ("?") ++ q)) ∧
    (u.list get o2 = get (match o2.serialize with
      | none => u.path (ascii (""))
      | some q => u.path (ascii ("")) ++ ascii ("?") ++ q)) ∧
    (org.list get o3 = get (match o3.serialize with
      | none => org.path (ascii (""))
      | some q => org.path (ascii ("")) ++ ascii ("?") ++ q)) := by
  have h0 : ascii ("") = ([] : List Nat) := rfl
  refine ⟨by rw [Repositories.path, h0, List.append_nil],
    by rw [UserRepositories.path, h0, List.append_nil],
    by rw [OrganizationRepositories.path, h0, List.append_nil], ?_, ?_, ?_⟩
  · rw [Repositories.list]
    cases h : o1.serialize with
    | none => rw [List.append_nil, intercalate_single]
    | some q => rw [List.singleton_append, intercalate_pair]
  · rw [UserRepositories.list]
    cases h : o2.serialize with
    | none => rw [List.append_nil, intercalate_single]
    | some q => rw [List.singleton_append, intercalate_pair]
  · rw [OrganizationRepositories.list]
    cases h : o3.serialize with
    | none => rw [List.append_nil, intercalate_single]
    | some q => rw [List.singleton_append, intercalate_pair]

/-- Witness for C7 at concrete options (one empty, two set). -/
theorem claim_C7_witness :
    (Repositories.path (ascii ("")) = ascii ("/user/repos")) ∧
    (Repositories.list (fun uri => uri)
        ((RepoListOptionsBuilder.new.visibility Visibility.All).build) =
      match ((RepoListOptionsBuilder.new.visibility Visibility.All).build).serialize with
      | none => Repositories.path (ascii (""))
      | some q => Repositories.path (ascii ("")) ++ ascii ("?") ++ q) :=
  ⟨(claim_C7 (fun uri => uri)
      ((RepoListOptionsBuilder.new.visibility Visibility.All).build)
      (UserRepositories.mk (ascii ("octocat"))) (UserRepoListOptions.mk [])
      (OrganizationRepositories.mk (ascii ("acme")))
      (OrganizationRepoListOptions.mk [])).1,
   (claim_C7 (fun uri => uri)
      ((RepoListOptionsBuilder.new.visibility Visibility.All).build)
      (UserRepositories.mk (ascii ("octocat"))) (UserRepoListOptions.mk [])
      (OrganizationRepositories.mk (ascii ("acme")))
      (OrganizationRepoListOptions.mk [])).2.2.2.1⟩

/-! ### Enum display mappings -/

/-- C8: each option enum's display mapping (a total Lean function, so
total and deterministic with no error path by construction) is
injective, and Visibility maps Public, Private, All to "public",
"private", "all". -/
theorem claim_C8 :
    (∀ a b : Visibility, a.display = b.display → a = b) ∧
    (∀ a b : SortKind, a.display = b.display → a = b) ∧
    (∀ a b : Affiliation, a.display = b.display → a = b) ∧
    (∀ a b : TypeKind, a.display = b.display → a = b) ∧
    (∀ a b : OrgRepoType, a.display = b.display → a = b) ∧
    Visibility.Public.display = ascii ("public") ∧
    Visibility.Private.display = ascii ("private") ∧
    Visibility.All.display = ascii ("all") := by
  refine ⟨?_, ?_, ?_, ?_, ?_, rfl, rfl, rfl⟩ <;>
    (intro a b h; cases a <;> cases b <;>
      first
        | rfl
        | exact absurd h (by decide))

/-- Witness for C8: the injectivity hypothesis discharged at a concrete
pair of equal displays. -/
theorem claim_C8_witness : Visibility.Private = Visibility.Private :=
  claim_C8.1 Visibility.Private Visibility.Private (by decide)

/-! ### JSON body of `RepoOptions` -/

theorem keys_optPair (k : List Nat) (v : Option JVal) :
    (optPair k v).map Prod.fst = if v.isSome = true then [k] else [] := by
  cases v <;> simp [optPair]

theorem mem_ite_singleton {α : Type} (a k : α) (c : Prop) [Decidable c] :
    (a ∈ if c then [k] else ([] : List α)) ↔ (c ∧ a = k) := by
  by_cases h : c <;> simp [h]

/-- C9: the JSON body for create always carries `name`, carries each
optional field's key exactly when that field is set, and never emits a
null value. -/
theorem claim_C9 (o : RepoOptions) :
    (ascii ("name") ∈ o.toJsonPairs.map Prod.fst) ∧
    ((ascii ("description") ∈ o.toJsonPairs.map Prod.fst) ↔
      o.description.isSome = true) ∧
    ((ascii ("homepage") ∈ o.toJsonPairs.map Prod.fst) ↔
      o.homepage.isSome = true) ∧
    ((ascii ("private") ∈ o.toJsonPairs.map Prod.fst) ↔
      o.private_.isSome = true) ∧
    ((ascii ("has_issues") ∈ o.toJsonPairs.map Prod.fst) ↔
      o.has_issues.isSome = true) ∧
    ((ascii ("has_wiki") ∈ o.toJsonPairs.map Prod.fst) ↔
      o.has_wiki.isSome = true) ∧
    ((ascii ("has_downloads") ∈ o.toJsonPairs.map Prod.fst) ↔
      o.has_downloads.isSome = true) ∧
    ((ascii ("team_id") ∈ o.toJsonPairs.map Prod.fst) ↔
      o.team_id.isSome = true) ∧
    ((ascii ("auto_init") ∈ o.toJsonPairs.map Prod.fst) ↔
      o.auto_init.isSome = true) ∧
    ((ascii ("gitignore_template") ∈ o.toJsonPairs.map Prod.fst) ↔
      o.gitignore_template.isSome = true) ∧
    ((ascii ("license_template") ∈ o.toJsonPairs.map Prod.fst) ↔
      o.license_template.isSome = true) ∧
    (JVal.jnull ∉ o.toJsonPairs.map Prod.snd) := by
  have hkey : ∀ a : List Nat,
      (a ∈ (RepoOptions.toJsonPairs o).map Prod.fst) ↔
        (a = ascii ("name") ∨
          (o.description.isSome = true ∧ a = ascii ("description")) ∨
          (o.homepage.isSome = true ∧ a = ascii ("homepage")) ∨
          (o.private_.isSome = true ∧ a = ascii ("private")) ∨
          (o.has_issues.isSome = true ∧ a = ascii ("has_issues")) ∨
          (o.has_wiki.isSome = true ∧ a = ascii ("has_wiki")) ∨
          (o.has_downloads.isSome = true ∧ a = ascii ("has_downloads")) ∨
          (o.team_id.isSome = true ∧ a = ascii ("team_id")) ∨
          (o.auto_init.isSome = true ∧ a = ascii ("auto_init")) ∨
          (o.gitignore_template.isSome = true ∧
            a = ascii ("gitignore_template")) ∨
          (o.license_template.isSome = true ∧
            a = ascii ("license_template"))) := by
    intro a
    rw [RepoOptions.toJsonPairs]
    simp only [List.map_append, keys_optPair, List.mem_append,
      mem_ite_singleton, List.map_cons, List.map_nil, List.mem_singleton,
      Option.isSome_map', or_assoc]
  refine ⟨?_, ?_, ?_, ?_, ?_, ?_, ?_, ?_, ?_, ?_, ?_, ?_⟩
  · rw [hkey]
    simp
  · rw [hkey]
    simp +decide
  · rw [hkey]
    simp +decide
  · rw [hkey]
    simp +decide
  · rw [hkey]
    simp +decide
  · rw [hkey]
    simp +decide
  · rw [hkey]
    simp +decide
  · rw [hkey]
    simp +decide
  · rw [hkey]
    simp +decide
  · rw [hkey]
    simp +decide
  · rw [hkey]
    simp +decide
  · intro hmem
    rw [RepoOptions.toJsonPairs] at hmem
    simp only [List.map_append, List.mem_append] at hmem
    rcases hmem with
      ((((((((((h | h) | h) | h) | h) | h) | h) | h) | h) | h) | h)
    · simp at h
    · revert h; cases o.description <;> simp [optPair]
    · revert h; cases o.homepage <;> simp [optPair]
    · revert h; cases o.private_ <;> simp [optPair]
    · revert h; cases o.has_issues <;> simp [optPair]
    · revert h; cases o.has_wiki <;> simp [optPair]
    · revert h; cases o.has_downloads <;> simp [optPair]
    · revert h; cases o.team_id <;> simp [optPair]
    · revert h; cases o.auto_init <;> simp [optPair]
    · revert h; cases o.gitignore_template <;> simp [optPair]
    · revert h; cases o.license_template <;> simp [optPair]

/-- Witness for C9 at a `RepoOptions` with every optional field unset. -/
theorem claim_C9_witness :
    ascii ("name") ∈
      (RepoOptions.mk (ascii ("hubcaps")) none none none none none none none
        none none none).toJsonPairs.map Prod.fst :=
  (claim_C9 (RepoOptions.mk (ascii ("hubcaps")) none none none none none none
    none none none none)).1

/-! ### Failure propagation (claim C6) -/

/-- C6 counterexample: `Repo::languages` on a repository record whose
`languages_url` is the empty string — a string `Url::parse` rejects —
panics (the `unwrap` on line 372) instead of returning an error result,
refuting "no panic ... for any input". -/
theorem claim_C6_counterexample :
    Repo.languages (fun _ => Outcome.ok (0 : Nat)) (ascii ("")) =
      Outcome.crash := rfl

/-- C6 amended: create and list hand back the shared client's outcome
unchanged (no error kinds of this subsystem's own, no recovery), and
languages does too whenever `languages_url` parses; but when the parse
fails, languages panics — the single failure behaviour beyond
propagation. -/
theorem claim_C6_amended {α β : Type} (get : List Nat → Outcome α)
    (post : List Nat → List (List Nat × JVal) → Outcome β)
    (repo : RepoOptions) (o : RepoListOptions) (lurl : List Nat) :
    (Repositories.create post repo =
      post (Repositories.path (ascii (""))) repo.toJsonPairs) ∧
    (Repositories.list get o = get (List.intercalate (ascii ("?"))
      ([Repositories.path (ascii (""))] ++
        (match o.serialize with | none => [] | some q => [q])))) ∧
    (∀ u, urlParse lurl = some u → Repo.languages get lurl = get u.path) ∧
    (urlParse lurl = none → Repo.languages get lurl = Outcome.crash) := by
  refine ⟨rfl, rfl, ?_, ?_⟩
  · intro u hu
    rw [Repo.languages, hu]
  · intro hn
    rw [Repo.languages, hn]

/-- Witness for C6 (amended) at a URL that parses. -/
theorem claim_C6_amended_witness :
    Repo.languages (fun p => Outcome.ok p) (ascii ("http://h/x")) =
      Outcome.ok (ascii ("/x")) :=
  (claim_C6_amended (fun p => Outcome.ok p)
    (fun _ _ => Outcome.ok ([] : List Nat))
    (RepoOptions.mk (ascii ("n")) none none none none none none none none
      none none)
    (RepoListOptions.mk []) (ascii ("http://h/x"))).2.2.1
    (UrlModel.mk (ascii ("/x"))) (by decide)

/-! ### The type-confusion invariant (claim C10) -/

theorem runRepoListOps_cons (b : RepoListOptionsBuilder) (op : RepoListOp)
    (t : List RepoListOp) :
    runRepoListOps b (op :: t) = runRepoListOps (applyRepoListOp b op) t := rfl

theorem runUserRepoListOps_cons (b : UserRepoListOptionsBuilder)
    (op : UserRepoListOp) (t : List UserRepoListOp) :
    runUserRepoListOps b (op :: t) =
      runUserRepoListOps (applyUserRepoListOp b op) t := rfl

theorem repoType_inv (ops : List RepoListOp) (b : RepoListOptionsBuilder)
    (hb : ∀ v, lookupP b.params (ascii ("type")) = some v → v ∈ sortTokens) :
    ∀ v, lookupP (runRepoListOps b ops).params (ascii ("type")) = some v →
      v ∈ sortTokens := by
  induction ops generalizing b with
  | nil => exact hb
  | cons op t ih =>
    rw [runRepoListOps_cons]
    refine ih (applyRepoListOp b op) ?_
    intro v hv
    rw [applyRepoListOp_params] at hv
    cases op with
    | repo_type tk =>
      simp only [repoListOpKey, repoListOpVal] at hv
      rw [lookupP_insertP_self, Option.some_inj] at hv
      subst hv
      cases tk <;> decide
    | visibility vv =>
      simp only [repoListOpKey] at hv
      rw [lookupP_insertP_ne _ _ (by decide)] at hv
      exact hb v hv
    | affiliation l =>
      simp only [repoListOpKey] at hv
      rw [lookupP_insertP_ne _ _ (by decide)] at hv
      exact hb v hv
    | sort sk =>
      simp only [repoListOpKey] at hv
      rw [lookupP_insertP_ne _ _ (by decide)] at hv
      exact hb v hv
    | asc =>
      simp only [repoListOpKey] at hv
      rw [lookupP_insertP_ne _ _ (by decide)] at hv
      exact hb v hv
    | desc =>
      simp only [repoListOpKey] at hv
      rw [lookupP_insertP_ne _ _ (by decide)] at hv
      exact hb v hv
    | direction d =>
      simp only [repoListOpKey] at hv
      rw [lookupP_insertP_ne _ _ (by decide)] at hv
      exact hb v hv

theorem userSort_inv (ops : List UserRepoListOp) (b : UserRepoListOptionsBuilder)
    (hb : ∀ v, lookupP b.params (ascii ("sort")) = some v → v ∈ typeTokens) :
    ∀ v, lookupP (runUserRepoListOps b ops).params (ascii ("sort")) = some v →
      v ∈ typeTokens := by
  induction ops generalizing b with
  | nil => exact hb
  | cons op t ih =>
    rw [runUserRepoListOps_cons]
    refine ih (applyUserRepoListOp b op) ?_
    intro v hv
    rw [applyUserRepoListOp_params] at hv
    cases op with
    | sort sk =>
      simp only [userRepoListOpKey, userRepoListOpVal] at hv
      rw [lookupP_insertP_self, Option.some_inj] at hv
      subst hv
      cases sk <;> decide
    | repo_type tk =>
      simp only [userRepoListOpKey] at hv
      rw [lookupP_insertP_ne _ _ (by decide)] at hv
      exact hb v hv
    | asc =>
      simp only [userRepoListOpKey] at hv
      rw [lookupP_insertP_ne _ _ (by decide)] at hv
      exact hb v hv
    | desc =>
      simp only [userRepoListOpKey] at hv
      rw [lookupP_insertP_ne _ _ (by decide)] at hv
      exact hb v hv
    | direction d =>
      simp only [userRepoListOpKey] at hv
      rw [lookupP_insertP_ne _ _ (by decide)] at hv
      exact hb v hv

/-- C10: for any builder-reachable `RepoListOptions`, the value stored
under "type" is a sort-field token (because `repo_type` takes `Sort`),
never a repository-type token; for any builder-reachable
`UserRepoListOptions`, the value under "sort" is a repository-type
token (because `sort` takes `Type`), never a sort-field token. -/
theorem claim_C10 (ops1 : List RepoListOp) (ops2 : List UserRepoListOp) :
    (match lookupP ((runRepoListOps RepoListOptionsBuilder.new ops1).build).params
        (ascii ("type")) with
      | none => True
      | some v => v ∈ sortTokens ∧ v ∉ typeTokens) ∧
    (match lookupP ((runUserRepoListOps UserRepoListOptionsBuilder.new ops2).build).params
        (ascii ("sort")) with
      | none => True
      | some v => v ∈ typeTokens ∧ v ∉ sortTokens) := by
  constructor
  · cases h : lookupP ((runRepoListOps RepoListOptionsBuilder.new ops1).build).params
        (ascii ("type")) with
    | none => trivial
    | some v =>
      have hv : v ∈ sortTokens :=
        repoType_inv ops1 RepoListOptionsBuilder.new
          (by intro v' hv'; simp [RepoListOptionsBuilder.new, lookupP] at hv') v h
      exact ⟨hv, (by decide : ∀ x ∈ sortTokens, x ∉ typeTokens) v hv⟩
  · cases h : lookupP ((runUserRepoListOps UserRepoListOptionsBuilder.new ops2).build).params
        (ascii ("sort")) with
    | none => trivial
    | some v =>
      have hv : v ∈ typeTokens :=
        userSort_inv ops2 UserRepoListOptionsBuilder.new
          (by intro v' hv'; simp [UserRepoListOptionsBuilder.new, lookupP] at hv') v h
      exact ⟨hv, (by decide : ∀ x ∈ typeTokens, x ∉ sortTokens) v hv⟩

/-- Witness for C10 at a one-setter program on each builder. -/
theorem claim_C10_witness :
    (match lookupP ((runRepoListOps RepoListOptionsBuilder.new
        [RepoListOp.repo_type SortKind.Created]).build).params
        (ascii ("type")) with
      | none => True
      | some v => v ∈ sortTokens ∧ v ∉ typeTokens) ∧
    (match lookupP ((runUserRepoListOps UserRepoListOptionsBuilder.new
        [UserRepoListOp.sort TypeKind.Owner]).build).params
        (ascii ("sort")) with
      | none => True
      | some v => v ∈ typeTokens ∧ v ∉ sortTokens) :=
  claim_C10 [RepoListOp.repo_type SortKind.Created]
    [UserRepoListOp.sort TypeKind.Owner]

end Hubcaps
